import Mathlib

/-!
Shallow embedding of the broadcast synchronization engine of
`src/app.py` (Multi-Phone-Speaker-System).

Wall-clock times, latencies and delays are modelled as exact rationals
(`Rat`); Python dictionaries keyed by client id are modelled as
association lists; the `deque(maxlen=...)` ingest buffer is modelled as a
list with drop-oldest append; one iteration of the async broadcast loop
and the per-message branches of `handle_client` are modelled as pure
state-passing functions.
-/

/-- `SAMPLE_RATE = 44100`, src/app.py line 28. -/
def SAMPLE_RATE : Nat := 44100

/-- `CHUNK = 1024`, src/app.py line 29. -/
def CHUNK : Nat := 1024

/-- `BUFFER_DURATION = 0.1`, src/app.py line 30. -/
def BUFFER_DURATION : Rat := 1/10

/-- `MAX_BUFFER_SIZE = 100`, src/app.py line 32: capacity of the ingest deque. -/
def MAX_BUFFER_SIZE : Nat := 100

/-- `mobile_buffer_time = 0.15`, src/app.py line 85: the buffer delay added
to the send time to obtain the scheduled play time. -/
def mobile_buffer_time : Rat := 15/100

/-- Lookup in a Python-dict-like association list (`d[k]` / `d.get(k)`). -/
def dictGet : List (String × Rat) → String → Option Rat
  | [], _ => none
  | p :: d, k => if p.1 = k then some p.2 else dictGet d k

/-- Overwriting assignment `d[k] = v` on an association list. -/
def dictSet (d : List (String × Rat)) (k : String) (v : Rat) :
    List (String × Rat) :=
  d.filter (fun p => p.1 != k) ++ [(k, v)]

/-- Guarded deletion `if k in d: del d[k]` on an association list. -/
def dictErase (d : List (String × Rat)) (k : String) :
    List (String × Rat) :=
  d.filter (fun p => p.1 != k)

/-- The `self.stats` dictionary, src/app.py lines 48-53. -/
structure Stats where
  total_packets : Nat
  clients_served : Nat
  sync_errors : Nat
  buffer_underruns : Nat
deriving Repr, DecidableEq

/-- The mutable state of `PrecisionAudioBroadcaster` (src/app.py lines
35-53) that the verified operations touch.  Clients are `(websocket,
client_id)` pairs; websockets are identified by a `Nat` handle.  The audio
buffer holds the base64 strings that `enhanced_audio_callback` appends. -/
structure Broadcaster where
  clients : List (Nat × String)
  audio_buffer : List String
  packet_counter : Nat
  sync_offsets : List (String × Rat)
  client_latencies : List (String × Rat)
  stats : Stats
deriving Repr, DecidableEq

/-- Fresh broadcaster state as built by `PrecisionAudioBroadcaster.__init__`. -/
def initBroadcaster : Broadcaster :=
  { clients := []
    audio_buffer := []
    packet_counter := 0
    sync_offsets := []
    client_latencies := []
    stats := { total_packets := 0, clients_served := 0, sync_errors := 0,
               buffer_underruns := 0 } }

/-- `add_client`, src/app.py lines 55-58: add the `(websocket, client_id)`
pair to the client set and zero the client's timing state. -/
def add_client (b : Broadcaster) (ws : Nat) (cid : String) : Broadcaster :=
  { b with
    clients := if (ws, cid) ∈ b.clients then b.clients else b.clients ++ [(ws, cid)]
    sync_offsets := dictSet b.sync_offsets cid 0
    client_latencies := dictSet b.client_latencies cid 0 }

/-- `remove_client`, src/app.py lines 61-66: drop every client entry with
this websocket, then delete the id's timing entries if present. -/
def remove_client (b : Broadcaster) (ws : Nat) (cid : String) : Broadcaster :=
  { b with
    clients := b.clients.filter (fun p => p.1 != ws)
    sync_offsets := dictErase b.sync_offsets cid
    client_latencies := dictErase b.client_latencies cid }

/-- Append on a `deque` with `maxlen = cap`: when the deque is full the
single oldest element is evicted to admit the new one. -/
def dequeAppend (cap : Nat) (buf : List α) (x : α) : List α :=
  (if cap ≤ buf.length then buf.tail else buf) ++ [x]

/-- The buffer write of `enhanced_audio_callback`, src/app.py line 337:
`broadcaster.audio_buffer.append(b64)` on the `maxlen=MAX_BUFFER_SIZE`
deque.  It touches nothing else in the broadcaster state. -/
def audio_callback_push (b : Broadcaster) (b64 : String) : Broadcaster :=
  { b with audio_buffer := dequeAppend MAX_BUFFER_SIZE b.audio_buffer b64 }

/-- The audio packet dictionary built by `broadcast_audio`, src/app.py
lines 89-102, plus the per-client `latency_compensation` field that lines
115-117 may add (`none` when the id has no latency entry). -/
structure AudioPacket where
  ptype : String
  audio : String
  timestamp : Rat
  play_at : Rat
  server_time : Rat
  packet_id : Nat
  sample_rate : Nat
  channels : Nat
  chunk_size : Nat
  buffer_time : Rat
  sync_mode : String
  sequence : Nat
  latency_compensation : Option Rat
deriving Repr, DecidableEq, Inhabited

/-- The shared packet of one broadcast iteration, src/app.py lines 89-102:
`play_at = current_time + mobile_buffer_time`, rolling sequence
`packet_counter % 1000`. -/
def basePacket (current_time : Rat) (audio_data : String)
    (packet_counter : Nat) : AudioPacket :=
  { ptype := "audio"
    audio := audio_data
    timestamp := current_time
    play_at := current_time + mobile_buffer_time
    server_time := current_time
    packet_id := packet_counter
    sample_rate := SAMPLE_RATE
    channels := 2
    chunk_size := CHUNK
    buffer_time := mobile_buffer_time
    sync_mode := "precise"
    sequence := packet_counter % 1000
    latency_compensation := none }

/-- Per-client packet adjustment, src/app.py lines 113-117: copy the
packet and, when the client id has a recorded latency, set
`play_at = play_time + latency/2` and record the compensation. -/
def clientPacket (pkt : AudioPacket) (play_time : Rat)
    (latencies : List (String × Rat)) (cid : String) : AudioPacket :=
  match dictGet latencies cid with
  | some lat =>
      { pkt with
        play_at := play_time + lat / 2
        latency_compensation := some (lat / 2) }
  | none => pkt

/-- One delivery of the fan-out: which websocket, which client id, and the
packet serialized to it. -/
structure SendRec where
  ws : Nat
  client_id : String
  packet : AudioPacket
deriving Repr, DecidableEq, Inhabited

/-- One iteration of the drain branch of `broadcast_audio`, src/app.py
lines 73-129, at wall-clock time `current_time`: pop the oldest buffered
frame, build the packet, bump the counters, and fan out one per-client
adjusted copy to every registered client (the sends that the iteration
issues are returned).  When the buffer is empty the iteration only
sleeps, so the state is unchanged and nothing is sent. -/
def broadcast_step (b : Broadcaster) (current_time : Rat) :
    Broadcaster × List SendRec :=
  match b.audio_buffer with
  | [] => (b, [])
  | audio_data :: rest =>
      let play_time := current_time + mobile_buffer_time
      let pkt := basePacket current_time audio_data b.packet_counter
      let sends := b.clients.map (fun c =>
        { ws := c.1, client_id := c.2
          packet := clientPacket pkt play_time b.client_latencies c.2 })
      ({ b with
          audio_buffer := rest
          packet_counter := b.packet_counter + 1
          stats := { b.stats with total_packets := b.stats.total_packets + 1 } },
       sends)

/-- The `pong` reply dictionary, src/app.py lines 254-261. -/
structure Pong where
  server_time : Rat
  client_time : Rat
  client_id : String
  measured_latency : Rat
deriving Repr, DecidableEq

/-- The `ping` branch of `handle_client`, src/app.py lines 246-262:
`client_time = data.get("client_time", 0)`;
`latency = current_time - client_time if client_time > 0 else 0`;
store the latency under the client id and reply with a pong. -/
def handle_ping (b : Broadcaster) (cid : String) (current_time : Rat)
    (client_time_field : Option Rat) : Broadcaster × Pong :=
  let client_time := client_time_field.getD 0
  let latency := if client_time > 0 then current_time - client_time else 0
  ({ b with client_latencies := dictSet b.client_latencies cid latency },
   { server_time := current_time
     client_time := client_time
     client_id := cid
     measured_latency := latency })

/-- The `buffer_boost` reply dictionary, src/app.py lines 280-284. -/
structure BufferBoost where
  btype : String
  boost_duration : Rat
  priority : String
deriving Repr, DecidableEq

/-- The `buffer_status` branch of `handle_client`, src/app.py lines
276-285: read `buffer_size` (default 0); when it is below 2 send a single
fixed `buffer_boost` message; the broadcaster state is not touched. -/
def handle_buffer_status (b : Broadcaster) (buffer_size_field : Option Int) :
    Broadcaster × List BufferBoost :=
  let client_buffer := buffer_size_field.getD 0
  if client_buffer < 2 then
    (b, [{ btype := "buffer_boost", boost_duration := 1/5, priority := "high" }])
  else
    (b, [])

/-- Client-id generation, src/app.py line 211:
`client_id = f"client_{int(time.time() * 1000) % 100000}"`, with the
connect time as nonnegative seconds (on nonnegative values Python's
`int()` truncation is the floor). -/
def clientId (t : Rat) : String :=
  "client_" ++ toString (⌊t * 1000⌋.toNat % 100000)

/-- A websocket frame: the server either sends a serialized text (JSON)
packet — `websocket.send(json.dumps(...))` — or a binary byte frame.
`src/app.py` only ever sends text frames. -/
inductive WireMessage where
  | text (payload : AudioPacket) : WireMessage
  | binary (bytes : List Nat) : WireMessage
deriving Repr, DecidableEq

/-- What one fan-out delivery puts on the wire, src/app.py line 119:
`await websocket.send(json.dumps(client_packet))` — a text frame holding
the JSON-serialized packet. -/
def wireOf (s : SendRec) : WireMessage :=
  WireMessage.text s.packet

/-- Whether a wire message is a binary frame. -/
def isBinaryFrame : WireMessage → Bool
  | WireMessage.text _ => false
  | WireMessage.binary _ => true

/-- Projections convenient for stating counterexamples about a fan-out. -/
def sendPlayAt (s : SendRec) : Nat × Rat :=
  (s.ws, s.packet.play_at)

/-- Setting a key makes lookup of that key return the new value. -/
theorem dictGet_dictSet_self (d : List (String × Rat)) (k : String) (v : Rat) :
    dictGet (dictSet d k v) k = some v := by
  induction d with
  | nil => simp [dictGet, dictSet]
  | cons a d ih =>
    by_cases h : a.1 = k
    · simpa [dictSet, List.filter_cons, h] using ih
    · simpa [dictSet, List.filter_cons, h, dictGet] using ih

/-- Erasing one key leaves lookups of any other key unchanged. -/
theorem dictGet_dictErase_ne (d : List (String × Rat)) (k k' : String)
    (h : k' ≠ k) : dictGet (dictErase d k) k' = dictGet d k' := by
  induction d with
  | nil => rfl
  | cons a d ih =>
    by_cases ha : a.1 = k
    · have hk : ¬ (k = k') := fun hh => h hh.symm
      have ih' := ih
      simp only [dictErase] at ih'
      simp [dictErase, List.filter_cons, ha, dictGet, hk, ih']
    · simp only [dictErase, List.filter_cons] at ih ⊢
      simp [ha, dictGet, ih]

/-- Erasing a key twice is the same as erasing it once. -/
theorem dictErase_dictErase (d : List (String × Rat)) (k : String) :
    dictErase (dictErase d k) k = dictErase d k := by
  simp [dictErase, List.filter_filter]

/-- A successful lookup comes from an entry of the list. -/
theorem dictGet_mem {d : List (String × Rat)} {k : String} {v : Rat}
    (h : dictGet d k = some v) : ∃ p ∈ d, p.2 = v := by
  induction d with
  | nil => simp [dictGet] at h
  | cons a d ih =>
    by_cases ha : a.1 = k
    · simp [dictGet, ha] at h
      exact ⟨a, List.mem_cons_self a d, h⟩
    · simp [dictGet, ha] at h
      obtain ⟨p, hp, hv⟩ := ih h
      exact ⟨p, List.mem_cons_of_mem a hp, hv⟩

/-- Folding drop-oldest appends over a buffer keeps exactly the most
recent `cap` elements: the result is the suffix of `buf ++ xs` past the
overflow. -/
theorem foldl_dequeAppend (cap : Nat) (hpos : 0 < cap) (xs : List α) :
    ∀ buf : List α, buf.length ≤ cap →
      List.foldl (dequeAppend cap) buf xs =
        (buf ++ xs).drop (buf.length + xs.length - cap) := by
  induction xs with
  | nil =>
    intro buf hbuf
    simp [Nat.sub_eq_zero_of_le hbuf]
  | cons x xs ih =>
    intro buf hbuf
    rcases Nat.lt_or_ge buf.length cap with hlt | hge
    · have hstep : dequeAppend cap buf x = buf ++ [x] := by
        simp [dequeAppend, Nat.not_le_of_lt hlt]
      have hlen : (buf ++ [x]).length ≤ cap := by simp; omega
      rw [List.foldl_cons, hstep, ih (buf ++ [x]) hlen]
      rw [List.append_assoc, List.singleton_append]
      congr 1
      simp
      omega
    · have hcap : buf.length = cap := Nat.le_antisymm hbuf hge
      have hne : buf ≠ [] := by
        intro hnil
        rw [hnil] at hcap
        simp at hcap
        omega
      obtain ⟨b₀, bt, rfl⟩ := List.exists_cons_of_ne_nil hne
      have hlbt : bt.length + 1 = cap := by simpa using hcap
      have hstep : dequeAppend cap (b₀ :: bt) x = bt ++ [x] := by
        have hc : cap ≤ bt.length + 1 := by simpa using hge
        simp [dequeAppend, hc]
      have hlen : (bt ++ [x]).length ≤ cap := by simp; omega
      rw [List.foldl_cons, hstep, ih (bt ++ [x]) hlen]
      have h1 : (bt ++ [x]).length + xs.length - cap = xs.length := by
        simp; omega
      have h2 : (b₀ :: bt).length + (x :: xs).length - cap = xs.length + 1 := by
        simp; omega
      rw [h1, h2, List.append_assoc, List.singleton_append, List.cons_append,
        List.drop_succ_cons]

/-- The audio buffer after a sequence of capture-callback pushes is the
fold of the deque append over the pushed frames. -/
theorem audio_buffer_foldl (xs : List String) :
    ∀ b : Broadcaster,
      (List.foldl audio_callback_push b xs).audio_buffer =
        List.foldl (dequeAppend MAX_BUFFER_SIZE) b.audio_buffer xs := by
  induction xs with
  | nil => intro b; rfl
  | cons x xs ih =>
    intro b
    rw [List.foldl_cons, List.foldl_cons, ih]
    rfl

/-- The per-client adjustment never touches the packet's send timestamp. -/
theorem clientPacket_server_time (pkt : AudioPacket) (play_time : Rat)
    (lats : List (String × Rat)) (cid : String) :
    (clientPacket pkt play_time lats cid).server_time = pkt.server_time := by
  unfold clientPacket
  cases dictGet lats cid <;> rfl

/-- The per-client adjustment never touches the sequence number. -/
theorem clientPacket_sequence (pkt : AudioPacket) (play_time : Rat)
    (lats : List (String × Rat)) (cid : String) :
    (clientPacket pkt play_time lats cid).sequence = pkt.sequence := by
  unfold clientPacket
  cases dictGet lats cid <;> rfl

/-- The per-client adjustment never touches the capture timestamp. -/
theorem clientPacket_timestamp (pkt : AudioPacket) (play_time : Rat)
    (lats : List (String × Rat)) (cid : String) :
    (clientPacket pkt play_time lats cid).timestamp = pkt.timestamp := by
  unfold clientPacket
  cases dictGet lats cid <;> rfl

/-- The per-client adjustment never touches the type tag. -/
theorem clientPacket_ptype (pkt : AudioPacket) (play_time : Rat)
    (lats : List (String × Rat)) (cid : String) :
    (clientPacket pkt play_time lats cid).ptype = pkt.ptype := by
  unfold clientPacket
  cases dictGet lats cid <;> rfl

/-- The per-client adjustment never touches the audio payload. -/
theorem clientPacket_audio (pkt : AudioPacket) (play_time : Rat)
    (lats : List (String × Rat)) (cid : String) :
    (clientPacket pkt play_time lats cid).audio = pkt.audio := by
  unfold clientPacket
  cases dictGet lats cid <;> rfl

/-- Two per-client copies of one packet agree once `play_at` and the
`latency_compensation` field are overridden: they differ in nothing
else. -/
theorem clientPacket_override (pkt : AudioPacket) (play_time : Rat)
    (lats : List (String × Rat)) (cid₁ cid₂ : String) :
    { clientPacket pkt play_time lats cid₁ with
        play_at := (clientPacket pkt play_time lats cid₂).play_at
        latency_compensation :=
          (clientPacket pkt play_time lats cid₂).latency_compensation } =
      clientPacket pkt play_time lats cid₂ := by
  unfold clientPacket
  cases dictGet lats cid₁ <;> cases dictGet lats cid₂ <;> rfl

/-- Inversion of fan-out membership: every send of a broadcast iteration
comes from a registered client and carries the per-client adjusted copy of
the iteration's packet. -/
theorem mem_broadcast_sends {b : Broadcaster} {t : Rat} {s : SendRec}
    (h : s ∈ (broadcast_step b t).2) :
    ∃ x rest, b.audio_buffer = x :: rest ∧
      ∃ c ∈ b.clients,
        s = { ws := c.1, client_id := c.2
              packet := clientPacket (basePacket t x b.packet_counter)
                (t + mobile_buffer_time) b.client_latencies c.2 } := by
  cases hb : b.audio_buffer with
  | nil =>
    unfold broadcast_step at h
    rw [hb] at h
    simp at h
  | cons x rest =>
    unfold broadcast_step at h
    rw [hb] at h
    simp only [List.mem_map] at h
    obtain ⟨c, hc, hs⟩ := h
    exact ⟨x, rest, rfl, c, hc, hs.symm⟩

/-- C7: for every sequence of pushes that exceeds the capacity, the ingest
buffer never holds more than `MAX_BUFFER_SIZE` frames, and afterwards it
holds exactly the most recently pushed `MAX_BUFFER_SIZE` frames in arrival
order. -/
theorem c7_buffer_bounded_most_recent (b : Broadcaster) (xs : List String)
    (hb : b.audio_buffer = []) (hlen : MAX_BUFFER_SIZE < xs.length) :
    (∀ n : Nat,
        (List.foldl audio_callback_push b (xs.take n)).audio_buffer.length ≤
          MAX_BUFFER_SIZE) ∧
      (List.foldl audio_callback_push b xs).audio_buffer =
        xs.drop (xs.length - MAX_BUFFER_SIZE) := by
  have hpos : 0 < MAX_BUFFER_SIZE := by norm_num [MAX_BUFFER_SIZE]
  constructor
  · intro n
    rw [audio_buffer_foldl, hb,
      foldl_dequeAppend MAX_BUFFER_SIZE hpos _ [] (by simp)]
    simp only [List.nil_append, List.length_nil, Nat.zero_add, List.length_drop,
      List.length_take]
    omega
  · rw [audio_buffer_foldl, hb,
      foldl_dequeAppend MAX_BUFFER_SIZE hpos xs [] (by simp)]
    simp

/-- Concrete frames for the C7 witness: 101 pushes against capacity 100. -/
def c7_frames : List String := (List.range 101).map (fun n => toString n)

/-- C7 witness: the theorem instantiated at 101 concrete pushes from the
initial (empty-buffer) state. -/
theorem c7_buffer_bounded_most_recent_witness :
    MAX_BUFFER_SIZE < c7_frames.length ∧
      (List.foldl audio_callback_push initBroadcaster c7_frames).audio_buffer =
        c7_frames.drop (c7_frames.length - MAX_BUFFER_SIZE) :=
  ⟨by decide,
   (c7_buffer_bounded_most_recent initBroadcaster c7_frames rfl (by decide)).2⟩

/-- C3: the id generator of `handle_client` (src/app.py line 211) assigns
the same id to two connections 100 seconds apart — ids are derived from
the connect time modulo 100000 milliseconds and are not collision-free
within a process lifetime. -/
theorem c3_client_id_collision :
    clientId 1000 = "client_0" ∧ clientId 1100 = "client_0" ∧
      (1000 : Rat) ≠ 1100 := by
  have h1 : ⌊(1000 : Rat) * 1000⌋ = 1000000 := by norm_num
  have h2 : ⌊(1100 : Rat) * 1000⌋ = 1100000 := by norm_num
  refine ⟨?_, ?_, by norm_num⟩
  · unfold clientId
    rw [h1]
    rfl
  · unfold clientId
    rw [h2]
    rfl

/-- C10: a ping whose `client_time` is absent or nonpositive yields
`measured_latency = 0` and stores latency `0` for the client. -/
theorem c10_nonpositive_ping_zero_latency (b : Broadcaster) (cid : String)
    (t : Rat) (ct : Option Rat) (h : ct.getD 0 ≤ 0) :
    (handle_ping b cid t ct).2.measured_latency = 0 ∧
      dictGet (handle_ping b cid t ct).1.client_latencies cid = some 0 := by
  have hnot : ¬ (0 < ct.getD 0) := not_lt.mpr h
  constructor
  · simp [handle_ping, hnot]
  · simp [handle_ping, hnot, dictGet_dictSet_self]

/-- C10 witness: a ping with no `client_time` field at server time 7. -/
theorem c10_nonpositive_ping_witness :
    (handle_ping initBroadcaster "client_0" 7 none).2.measured_latency = 0 ∧
      dictGet (handle_ping initBroadcaster "client_0" 7 none).1.client_latencies
          "client_0" = some 0 :=
  c10_nonpositive_ping_zero_latency initBroadcaster "client_0" 7 none (by simp)

/-- Server send timestamp carried by one delivery. -/
def sendServerTime (s : SendRec) : Rat :=
  s.packet.server_time

/-- State reached by: connect client 1, answer its ping sent with
`client_time = 11` at server time 10 (storing latency `10 - 11 = -1`),
then capture one frame. -/
def c1cx_b : Broadcaster :=
  audio_callback_push
    (handle_ping (add_client initBroadcaster 1 "client_0") "client_0" 10 (some 11)).1
    "frame"

/-- C1 counterexample: after a ping whose `client_time` exceeds the server
clock, the stored latency is negative and the only delivered packet of the
next broadcast has `play_at = 393/20 = 19.65`, strictly below its send
timestamp `20` plus the 0.1 s buffer — the claimed bound fails for a
reachable recorded latency. -/
theorem c1_negative_latency_violates_min_delay :
    (broadcast_step c1cx_b 20).2.map sendPlayAt = [(1, 393/20)] ∧
      (broadcast_step c1cx_b 20).2.map sendServerTime = [20] ∧
      (393/20 : Rat) < 20 + BUFFER_DURATION := by
  norm_num [c1cx_b, audio_callback_push, dequeAppend, handle_ping, add_client,
    initBroadcaster, dictSet, dictGet, broadcast_step, basePacket, clientPacket,
    sendPlayAt, sendServerTime, mobile_buffer_time, BUFFER_DURATION,
    MAX_BUFFER_SIZE, List.filter]

/-- C1 (amended): provided every recorded client latency is nonnegative,
every delivered packet's `play_at` is at least its server send timestamp
plus the 0.1 s `BUFFER_DURATION` (indeed plus the full 0.15 s
`mobile_buffer_time`). -/
theorem c1_play_at_min_delay_of_nonneg_latency (b : Broadcaster) (t : Rat)
    (hlat : ∀ p ∈ b.client_latencies, 0 ≤ p.2) :
    ∀ s ∈ (broadcast_step b t).2,
      s.packet.server_time + BUFFER_DURATION ≤ s.packet.play_at ∧
        s.packet.server_time + mobile_buffer_time ≤ s.packet.play_at := by
  intro s hs
  obtain ⟨x, rest, hb, c, hc, rfl⟩ := mem_broadcast_sends hs
  rcases hd : dictGet b.client_latencies c.2 with _ | lat
  · simp only [clientPacket, hd, basePacket, BUFFER_DURATION, mobile_buffer_time]
    constructor <;> linarith
  · obtain ⟨p, hp, hv⟩ := dictGet_mem hd
    have h0 : 0 ≤ lat := by rw [← hv]; exact hlat p hp
    simp only [clientPacket, hd, basePacket, BUFFER_DURATION, mobile_buffer_time]
    constructor <;> linarith

/-- A one-client, one-frame state whose only recorded latency is the zero
set at registration. -/
def c1w_b : Broadcaster :=
  audio_callback_push (add_client initBroadcaster 1 "client_0") "f"

/-- The single delivery of broadcasting `c1w_b` at time 0. -/
def c1w_send : SendRec :=
  { ws := 1, client_id := "client_0"
    packet := clientPacket (basePacket 0 "f" 0) (0 + mobile_buffer_time)
      c1w_b.client_latencies "client_0" }

/-- `c1w_send` is really among the sends of that broadcast. -/
theorem c1w_mem : c1w_send ∈ (broadcast_step c1w_b 0).2 :=
  List.mem_singleton_self _

/-- All latencies recorded in `c1w_b` are nonnegative. -/
theorem c1w_hlat : ∀ p ∈ c1w_b.client_latencies, 0 ≤ p.2 := by
  intro p hp
  have : p = ("client_0", (0 : Rat)) := by
    simpa [c1w_b, audio_callback_push, add_client, initBroadcaster, dictSet]
      using hp
  simp [this]

/-- C1 witness: the amended bound instantiated at the concrete one-client
state. -/
theorem c1_play_at_min_delay_witness :
    c1w_send.packet.server_time + BUFFER_DURATION ≤ c1w_send.packet.play_at ∧
      c1w_send.packet.server_time + mobile_buffer_time ≤ c1w_send.packet.play_at :=
  c1_play_at_min_delay_of_nonneg_latency c1w_b 0 c1w_hlat c1w_send c1w_mem

/-- A broadcaster whose ingest buffer is exactly at capacity. -/
def c4_full : Broadcaster :=
  { initBroadcaster with audio_buffer := List.replicate MAX_BUFFER_SIZE "old" }

/-- C4 counterexample: pushing onto the full ingest buffer leaves every
statistics counter — including `buffer_underruns`, the only overflow-like
counter the code has — unchanged, so no counter is incremented on
overflow. -/
theorem c4_overflow_does_not_increment_counter :
    c4_full.audio_buffer.length = MAX_BUFFER_SIZE ∧
      (audio_callback_push c4_full "new").stats = c4_full.stats ∧
      (audio_callback_push c4_full "new").stats.buffer_underruns = 0 := by decide

/-- C4 (amended): the capture-callback push is total (never blocks or
fails), keeps the buffer within capacity, evicts exactly the single oldest
frame when the buffer is at capacity, appends without eviction below
capacity, and never touches the statistics counters. -/
theorem c4_push_drop_oldest_no_counter (b : Broadcaster) (x : String)
    (hlen : b.audio_buffer.length ≤ MAX_BUFFER_SIZE) :
    (audio_callback_push b x).stats = b.stats ∧
      (audio_callback_push b x).audio_buffer.length ≤ MAX_BUFFER_SIZE ∧
      (b.audio_buffer.length = MAX_BUFFER_SIZE →
        (audio_callback_push b x).audio_buffer = b.audio_buffer.tail ++ [x]) ∧
      (b.audio_buffer.length < MAX_BUFFER_SIZE →
        (audio_callback_push b x).audio_buffer = b.audio_buffer ++ [x]) := by
  refine ⟨rfl, ?_, ?_, ?_⟩
  · have h100 : MAX_BUFFER_SIZE = 100 := rfl
    by_cases hc : MAX_BUFFER_SIZE ≤ b.audio_buffer.length
    · simp only [audio_callback_push, dequeAppend, if_pos hc, List.length_append,
        List.length_tail, List.length_cons, List.length_nil]
      rw [h100] at hlen hc ⊢
      omega
    · simp only [audio_callback_push, dequeAppend, if_neg hc, List.length_append,
        List.length_cons, List.length_nil]
      rw [h100] at hlen hc ⊢
      omega
  · intro he
    simp [audio_callback_push, dequeAppend, he]
  · intro hlt
    simp [audio_callback_push, dequeAppend, Nat.not_le_of_lt hlt]

/-- C4 witness: the amended contract instantiated at the empty-buffer
initial state. -/
theorem c4_push_drop_oldest_witness :
    (audio_callback_push initBroadcaster "f").stats = initBroadcaster.stats ∧
      (audio_callback_push initBroadcaster "f").audio_buffer.length ≤
        MAX_BUFFER_SIZE ∧
      (initBroadcaster.audio_buffer.length = MAX_BUFFER_SIZE →
        (audio_callback_push initBroadcaster "f").audio_buffer =
          initBroadcaster.audio_buffer.tail ++ ["f"]) ∧
      (initBroadcaster.audio_buffer.length < MAX_BUFFER_SIZE →
        (audio_callback_push initBroadcaster "f").audio_buffer =
          initBroadcaster.audio_buffer ++ ["f"]) :=
  c4_push_drop_oldest_no_counter initBroadcaster "f" (by decide)

/-- C5 counterexample: a `buffer_status` report of 0 gets exactly one
reply, but it is a `buffer_boost` message — not the claimed
`buffer_adjust` — and the broadcaster state (hence any server-side target
buffer delay) is completely unchanged, so nothing is "raised". -/
theorem c5_reply_is_buffer_boost_not_adjust :
    (handle_buffer_status initBroadcaster (some 0)).1 = initBroadcaster ∧
      (handle_buffer_status initBroadcaster (some 0)).2.map BufferBoost.btype =
        ["buffer_boost"] ∧
      ("buffer_boost" : String) ≠ "buffer_adjust" := by decide

/-- C5 (amended): a `buffer_status` report below the low threshold 2
triggers exactly one reply, the fixed `buffer_boost` message granting a
0.2 s one-shot boost, and leaves the broadcaster state — in particular any
target buffer delay — unchanged (never raised, never lowered). -/
theorem c5_low_buffer_single_boost_reply (b : Broadcaster) (sz : Option Int)
    (h : sz.getD 0 < 2) :
    handle_buffer_status b sz =
      (b, [{ btype := "buffer_boost", boost_duration := 1/5,
             priority := "high" }]) := by
  simp [handle_buffer_status, h]

/-- C5 witness: a report of depth 1 from the initial state. -/
theorem c5_low_buffer_single_boost_witness :
    handle_buffer_status initBroadcaster (some 1) =
      (initBroadcaster,
       [{ btype := "buffer_boost", boost_duration := 1/5,
          priority := "high" }]) :=
  c5_low_buffer_single_boost_reply initBroadcaster (some 1) (by decide)

/-- Two-client state: "client_1" has answered a ping at server time 5 with
`client_time = 3` (latency 2); "client_0" keeps the zero latency from
registration; one frame captured. -/
def c2cx_b : Broadcaster :=
  audio_callback_push
    (handle_ping (add_client (add_client initBroadcaster 1 "client_0") 2 "client_1")
      "client_1" 5 (some 3)).1
    "f"

/-- First subscriber's packet of broadcasting `c2cx_b` at time 10. -/
def c2cx_p0 : AudioPacket :=
  ((broadcast_step c2cx_b 10).2.headI).packet

/-- Second subscriber's packet of the same broadcast. -/
def c2cx_p1 : AudioPacket :=
  (((broadcast_step c2cx_b 10).2.drop 1).headI).packet

/-- C2 counterexample: the two subscribers' packets for one frame carry
the same sequence number and capture timestamp, yet overriding only
`play_at` does not make them equal — they also differ in the
`latency_compensation` field, so the packets differ in more than
`play_at`. -/
theorem c2_packets_differ_beyond_play_at :
    c2cx_p0.sequence = c2cx_p1.sequence ∧
      c2cx_p0.timestamp = c2cx_p1.timestamp ∧
      { c2cx_p0 with play_at := c2cx_p1.play_at } ≠ c2cx_p1 := by
  have hne : ("client_0" = "client_1") = False := by simp
  norm_num [c2cx_p0, c2cx_p1, c2cx_b, audio_callback_push, dequeAppend,
    handle_ping, add_client, initBroadcaster, dictSet, dictGet, broadcast_step,
    basePacket, clientPacket, mobile_buffer_time, MAX_BUFFER_SIZE, List.filter,
    List.headI, hne]

/-- C2 (amended): for every broadcast frame, a client with recorded
latency `lat` receives `play_at = t + mobile_buffer_time + lat/2`; all
subscribers' packets share the iteration's sequence number and capture
timestamp and agree on every field except `play_at` and
`latency_compensation`. -/
theorem c2_per_client_play_at_formula (b : Broadcaster) (t lat : Rat)
    (s₁ s₂ : SendRec)
    (h₁ : s₁ ∈ (broadcast_step b t).2) (h₂ : s₂ ∈ (broadcast_step b t).2)
    (hlat : dictGet b.client_latencies s₁.client_id = some lat) :
    s₁.packet.play_at = t + mobile_buffer_time + lat / 2 ∧
      s₁.packet.sequence = b.packet_counter % 1000 ∧
      s₁.packet.timestamp = t ∧
      { s₁.packet with
          play_at := s₂.packet.play_at
          latency_compensation := s₂.packet.latency_compensation } =
        s₂.packet := by
  obtain ⟨x₁, r₁, hb₁, c₁, hc₁, hs₁⟩ := mem_broadcast_sends h₁
  obtain ⟨x₂, r₂, hb₂, c₂, hc₂, hs₂⟩ := mem_broadcast_sends h₂
  rw [hb₁] at hb₂
  injection hb₂ with hx hr
  subst hx hr hs₁ hs₂
  have hlat' : dictGet b.client_latencies c₁.2 = some lat := hlat
  refine ⟨?_, ?_, ?_, ?_⟩
  · show (clientPacket (basePacket t x₁ b.packet_counter) (t + mobile_buffer_time)
        b.client_latencies c₁.2).play_at = t + mobile_buffer_time + lat / 2
    simp only [clientPacket, hlat']
  · show (clientPacket (basePacket t x₁ b.packet_counter) (t + mobile_buffer_time)
        b.client_latencies c₁.2).sequence = b.packet_counter % 1000
    simp only [clientPacket_sequence, basePacket]
  · show (clientPacket (basePacket t x₁ b.packet_counter) (t + mobile_buffer_time)
        b.client_latencies c₁.2).timestamp = t
    simp only [clientPacket_timestamp, basePacket]
  · exact clientPacket_override (basePacket t x₁ b.packet_counter)
      (t + mobile_buffer_time) b.client_latencies c₁.2 c₂.2

/-- C2 witness: the formula at the concrete one-client state (latency 0). -/
theorem c2_per_client_play_at_witness :
    c1w_send.packet.play_at = 0 + mobile_buffer_time + 0 / 2 ∧
      c1w_send.packet.sequence = c1w_b.packet_counter % 1000 ∧
      c1w_send.packet.timestamp = 0 ∧
      { c1w_send.packet with
          play_at := c1w_send.packet.play_at
          latency_compensation := c1w_send.packet.latency_compensation } =
        c1w_send.packet :=
  c2_per_client_play_at_formula c1w_b 0 0 c1w_send c1w_send c1w_mem c1w_mem rfl

/-- C6 counterexample: what a fan-out delivery puts on the wire is a text
(JSON) frame, not a binary frame, so no delivered audio packet is encoded
in the claimed binary framing layout. -/
theorem c6_audio_sent_as_text_not_binary :
    wireOf c1w_send = WireMessage.text c1w_send.packet ∧
      isBinaryFrame (wireOf c1w_send) = false := by
  constructor <;> rfl

/-- C6 (amended): every fan-out delivery is serialized as a JSON text
frame — never a binary frame — whose payload has type tag `"audio"` and
carries the head frame of the ingest buffer as its base64 payload. -/
theorem c6_fanout_sends_json_text (b : Broadcaster) (t : Rat) (s : SendRec)
    (h : s ∈ (broadcast_step b t).2) :
    isBinaryFrame (wireOf s) = false ∧ s.packet.ptype = "audio" ∧
      s.packet.audio = b.audio_buffer.headI := by
  obtain ⟨x, rest, hb, c, hc, rfl⟩ := mem_broadcast_sends h
  refine ⟨rfl, ?_, ?_⟩
  · show (clientPacket (basePacket t x b.packet_counter) (t + mobile_buffer_time)
        b.client_latencies c.2).ptype = "audio"
    simp only [clientPacket_ptype, basePacket]
  · show (clientPacket (basePacket t x b.packet_counter) (t + mobile_buffer_time)
        b.client_latencies c.2).audio = b.audio_buffer.headI
    simp only [clientPacket_audio, basePacket, hb, List.headI]

/-- C6 witness: the amended statement at the concrete one-client state. -/
theorem c6_fanout_sends_json_text_witness :
    isBinaryFrame (wireOf c1w_send) = false ∧
      c1w_send.packet.ptype = "audio" ∧
      c1w_send.packet.audio = c1w_b.audio_buffer.headI :=
  c6_fanout_sends_json_text c1w_b 0 c1w_send c1w_mem

/-- C8 counterexample: a ping carrying a nonpositive `client_time = -3` at
server reply time 5 yields `measured_latency = 0`, not the claimed
`server reply time - T = 8` — the formula only holds for positive
`client_time`. -/
theorem c8_nonpositive_client_time_zero_latency :
    (handle_ping initBroadcaster "client_0" 5 (some (-3))).2.measured_latency =
        0 ∧
      (5 : Rat) - (-3) = 8 ∧ (0 : Rat) ≠ 8 := by
  refine ⟨?_, by norm_num, by norm_num⟩
  norm_num [handle_ping]

/-- C8 (amended): for every ping carrying a positive `client_time = T`,
the pong reports `measured_latency = reply time - T`, that value
overwrites the stored latency of the client, and the next broadcast
delivers to that client a packet compensated with half that latency. -/
theorem c8_ping_latency_recorded_and_used (b : Broadcaster) (cid : String)
    (t T t₂ : Rat) (ws : Nat) (x : String) (rest : List String)
    (hT : 0 < T) (hmem : (ws, cid) ∈ b.clients)
    (hbuf : b.audio_buffer = x :: rest) :
    (handle_ping b cid t (some T)).2.server_time = t ∧
      (handle_ping b cid t (some T)).2.measured_latency = t - T ∧
      dictGet (handle_ping b cid t (some T)).1.client_latencies cid =
        some (t - T) ∧
      ({ ws := ws, client_id := cid
         packet := { basePacket t₂ x b.packet_counter with
                     play_at := t₂ + mobile_buffer_time + (t - T) / 2
                     latency_compensation := some ((t - T) / 2) } } : SendRec) ∈
        (broadcast_step (handle_ping b cid t (some T)).1 t₂).2 := by
  have hlook : dictGet (handle_ping b cid t (some T)).1.client_latencies cid =
      some (t - T) := by
    simp [handle_ping, hT, dictGet_dictSet_self]
  refine ⟨rfl, by simp [handle_ping, hT], hlook, ?_⟩
  have hbc : (handle_ping b cid t (some T)).1.audio_buffer = x :: rest := hbuf
  have hcl : (ws, cid) ∈ (handle_ping b cid t (some T)).1.clients := hmem
  unfold broadcast_step
  rw [hbc]
  simp only [List.mem_map]
  refine ⟨(ws, cid), hcl, ?_⟩
  simp only [clientPacket, hlook]
  rfl

/-- C8 witness: ping with `client_time = 4` at server time 10 on the
one-client state, then broadcast at time 20. -/
theorem c8_ping_latency_witness :
    (handle_ping c1w_b "client_0" 10 (some 4)).2.server_time = 10 ∧
      (handle_ping c1w_b "client_0" 10 (some 4)).2.measured_latency = 10 - 4 ∧
      dictGet (handle_ping c1w_b "client_0" 10 (some 4)).1.client_latencies
          "client_0" = some (10 - 4) ∧
      ({ ws := 1, client_id := "client_0"
         packet := { basePacket 20 "f" c1w_b.packet_counter with
                     play_at := 20 + mobile_buffer_time + (10 - 4) / 2
                     latency_compensation := some ((10 - 4) / 2) } } : SendRec) ∈
        (broadcast_step (handle_ping c1w_b "client_0" 10 (some 4)).1 20).2 :=
  c8_ping_latency_recorded_and_used c1w_b "client_0" 10 4 20 1 "f" []
    (by norm_num) (by decide) rfl

/-- Two clients that were both assigned the colliding id "c" (reachable,
by `c3_client_id_collision`-style connects), with a measured latency of 6
recorded under that shared id, and one captured frame. -/
def c9cx_b : Broadcaster :=
  audio_callback_push
    (handle_ping (add_client (add_client initBroadcaster 1 "c") 2 "c") "c" 10
      (some 4)).1
    "f"

/-- C9 counterexample: before removal both clients are scheduled at
`463/20`; after unregistering websocket 1 under the shared id "c", the
remaining client's delivery changes to `403/20` — its latency entry was
deleted with the other session, so removal is not interference-free when
ids collide. -/
theorem c9_shared_id_removal_affects_other_client :
    (broadcast_step c9cx_b 20).2.map sendPlayAt = [(1, 463/20), (2, 463/20)] ∧
      (broadcast_step (remove_client c9cx_b 1 "c") 20).2.map sendPlayAt =
        [(2, 403/20)] ∧
      (403/20 : Rat) ≠ 463/20 := by
  have h21 : ((2 : Nat) != 1) = true := by norm_num
  have h11 : ((1 : Nat) != 1) = false := by norm_num
  norm_num [c9cx_b, audio_callback_push, dequeAppend, handle_ping, add_client,
    initBroadcaster, dictSet, dictGet, dictErase, remove_client, broadcast_step,
    basePacket, clientPacket, sendPlayAt, mobile_buffer_time, MAX_BUFFER_SIZE,
    List.filter, h21, h11]

/-- C9 (amended): `remove_client` is idempotent and total (never raises),
and removing one client leaves every other registered client's membership,
timing entries and per-packet compensation unchanged, provided that other
client does not share the removed client's id. -/
theorem c9_remove_idempotent_no_interference (b : Broadcaster) (ws ws' : Nat)
    (cid cid' : String) (hws : ws' ≠ ws) (hcid : cid' ≠ cid)
    (hmem : (ws', cid') ∈ b.clients) :
    remove_client (remove_client b ws cid) ws cid = remove_client b ws cid ∧
      (ws', cid') ∈ (remove_client b ws cid).clients ∧
      dictGet (remove_client b ws cid).client_latencies cid' =
        dictGet b.client_latencies cid' ∧
      dictGet (remove_client b ws cid).sync_offsets cid' =
        dictGet b.sync_offsets cid' ∧
      ∀ (pkt : AudioPacket) (play_time : Rat),
        clientPacket pkt play_time (remove_client b ws cid).client_latencies
            cid' =
          clientPacket pkt play_time b.client_latencies cid' := by
  refine ⟨?_, ?_, ?_, ?_, ?_⟩
  · simp [remove_client, dictErase, List.filter_filter]
  · simp only [remove_client]
    exact List.mem_filter.mpr ⟨hmem, by simp [hws]⟩
  · exact dictGet_dictErase_ne _ _ _ hcid
  · exact dictGet_dictErase_ne _ _ _ hcid
  · intro pkt play_time
    unfold clientPacket
    have hrc : (remove_client b ws cid).client_latencies =
        dictErase b.client_latencies cid := rfl
    rw [hrc, dictGet_dictErase_ne _ _ _ hcid]

/-- Two registered clients with distinct websockets and distinct ids. -/
def c9w_b : Broadcaster :=
  add_client (add_client initBroadcaster 1 "a") 2 "bb"

/-- C9 witness: idempotence and non-interference at the concrete
two-client state, removing websocket 1 / id "a". -/
theorem c9_remove_idempotent_witness :
    remove_client (remove_client c9w_b 1 "a") 1 "a" = remove_client c9w_b 1 "a" ∧
      (2, "bb") ∈ (remove_client c9w_b 1 "a").clients ∧
      dictGet (remove_client c9w_b 1 "a").client_latencies "bb" =
        dictGet c9w_b.client_latencies "bb" ∧
      clientPacket (basePacket 0 "f" 0) (0 + mobile_buffer_time)
          (remove_client c9w_b 1 "a").client_latencies "bb" =
        clientPacket (basePacket 0 "f" 0) (0 + mobile_buffer_time)
          c9w_b.client_latencies "bb" :=
  ⟨(c9_remove_idempotent_no_interference c9w_b 1 2 "a" "bb" (by decide)
      (by decide) (by decide)).1,
   (c9_remove_idempotent_no_interference c9w_b 1 2 "a" "bb" (by decide)
      (by decide) (by decide)).2.1,
   (c9_remove_idempotent_no_interference c9w_b 1 2 "a" "bb" (by decide)
      (by decide) (by decide)).2.2.1,
   (c9_remove_idempotent_no_interference c9w_b 1 2 "a" "bb" (by decide)
      (by decide) (by decide)).2.2.2.2 (basePacket 0 "f" 0)
     (0 + mobile_buffer_time)⟩
